import Mathlib

/-!
# Verification of the policy-files upload / document service

A shallow embedding of the Express service in this repository:

* `uploadHandler` embeds the `POST /upload` route of `src/server.js`
  (Firebase primary storage, Supabase fallback, Postgres insert);
* `previewHandler` embeds the `GET /documents/scrape/:document_id` route of
  `src/documents.js` (preview-URL derivation);
* `getSummary` embeds the aggregation loop of
  `GET /documents/project/:project_id/summary`;
* `uploadOrOtherQuery` / `scrapedQuery` embed the SQL of the two listing
  routes, interpreted over an explicit table of rows.

External collaborators (Firebase, Supabase, Postgres) are modelled by an
environment record giving the outcome of each call the handler makes; the
handlers additionally return an effect trace recording which backend
writes, signed-URL requests and database inserts happened.
-/

namespace PolicyFiles

/-! ## Embedded definitions and example inputs -/

deriving instance DecidableEq for Except

/-- JS truthiness of an optional string (for example an `env` variable or a
form field): `undefined`/absent and the empty string are falsy. -/
def truthyStr : Option String → Bool
  | none => false
  | some s => s ≠ ""

/-- JS `a || b` on two optional string fields, as in
`req.body.project_id || req.body.projectId`: the result is the first truthy
value, `none` when both are falsy. -/
def jsStrOr (a b : Option String) : Option String :=
  if truthyStr a then a else if truthyStr b then b else none

/-- JS `a || d` for a string column against a string default, as in
`r.source || 'unknown'`: null/absent and `""` fall back to the default. -/
def jsOrDefault (a : Option String) (d : String) : String :=
  match a with
  | none => d
  | some s => if s = "" then d else s

/-- ASCII lower-casing of one character (the fragment of both SQL `lower`
and JS `toLowerCase` exercised by this service). -/
def lowerChar (c : Char) : Char :=
  if 65 ≤ c.toNat ∧ c.toNat ≤ 90 then Char.ofNat (c.toNat + 32) else c

/-- ASCII lower-casing of a string. -/
def lowerStr (s : String) : String :=
  String.mk (s.data.map lowerChar)

/-- Characters `encodeURIComponent` leaves unescaped:
`A–Z a–z 0–9 - _ . ! ~ * ' ( )`. -/
def isUnreservedURIChar (c : Char) : Bool :=
  (decide (65 ≤ c.toNat) && decide (c.toNat ≤ 90)) ||
  (decide (97 ≤ c.toNat) && decide (c.toNat ≤ 122)) ||
  (decide (48 ≤ c.toNat) && decide (c.toNat ≤ 57)) ||
  c.toNat == 45 || c.toNat == 95 || c.toNat == 46 || c.toNat == 33 ||
  c.toNat == 126 || c.toNat == 42 || c.toNat == 39 || c.toNat == 40 ||
  c.toNat == 41

/-- Upper-case hexadecimal digit for `n < 16`. -/
def hexDigit (n : Nat) : Char :=
  if n < 10 then Char.ofNat (48 + n) else Char.ofNat (55 + n)

/-- UTF-8 encoding of one character as a byte list. -/
def utf8Bytes (c : Char) : List Nat :=
  let n := c.toNat
  if n < 128 then [n]
  else if n < 2048 then [192 + n / 64, 128 + n % 64]
  else if n < 65536 then [224 + n / 4096, 128 + (n / 64) % 64, 128 + n % 64]
  else [240 + n / 262144, 128 + (n / 4096) % 64, 128 + (n / 64) % 64, 128 + n % 64]

/-- Percent-escape of one byte, `%HH` with upper-case hex. -/
def percentEncodeByte (b : Nat) : List Char :=
  [Char.ofNat 37, hexDigit (b / 16), hexDigit (b % 16)]

/-- JS `encodeURIComponent`. -/
def encodeURIComponent (s : String) : String :=
  String.mk ((s.data.map (fun c =>
    if isUnreservedURIChar c then [c]
    else ((utf8Bytes c).map percentEncodeByte).flatten)).flatten)

/-- `filename.replace(/^\/+/, '')`: strip all leading slashes. -/
def dropLeadingSlashes (s : String) : String :=
  String.mk (s.data.dropWhile (fun c => c.toNat == 47))

/-- `supabaseUrl.replace(/\/$/, '')`: strip one trailing slash if present. -/
def stripTrailingSlash (s : String) : String :=
  match s.data.getLast? with
  | some c => if c.toNat = 47 then String.mk s.data.dropLast else s
  | none => s

/-- The uploaded file as multer's memory storage presents it. -/
structure UploadedFile where
  originalname : String
  mimetype : String
  buffer : List Nat

deriving Repr, DecidableEq

/-- The parts of the multipart request the upload route reads. -/
structure UploadReq where
  file : Option UploadedFile
  project_id : Option String
  projectId : Option String

deriving Repr, DecidableEq

/-- Which object-storage backend a call targets. -/
inductive Backend
  | firebase
  | supabase

deriving Repr, DecidableEq

/-- One signed-URL request made against a storage backend. -/
structure SignedUrlReq where
  backend : Backend
  path : String
  expiresInSeconds : Nat

deriving Repr, DecidableEq

/-- The column values of one `INSERT INTO documents` statement. -/
structure DocumentInsert where
  id : String
  project_id : String
  filename : String
  file_path : String
  source : String
  status : String
  document_content : Option String

deriving Repr, DecidableEq

/-- Trace of the externally visible side effects of one request. -/
structure Effects where
  fbWrite : Bool := false
  sbWrite : Bool := false
  signedUrlReqs : List SignedUrlReq := []
  dbInserts : List DocumentInsert := []
  objectDeletes : Nat := 0

deriving Repr, DecidableEq

/-- The JSON fields this service ever puts in a response body. -/
structure RespBody where
  error : Option String := none
  name : Option String := none
  url : Option String := none
  document_id : Option String := none
  message : Option String := none
  preview_url : Option String := none

deriving Repr, DecidableEq

/-- An HTTP response: status code and JSON body. -/
structure HttpResponse where
  status : Nat
  body : RespBody

deriving Repr, DecidableEq

/-- Outcomes of the external calls the upload route can make.  `fbBucket`
is `firebase.getBucket()` (which throws when the service account is not
configured); `fbStream` the write stream's terminal event; `fbSign`
`file.getSignedUrl`; `sbClient` whether the supabase client is non-null;
`sbBucketName` `process.env.SUPABASE_BUCKET`; `sbUploadErr` the `error`
field returned by supabase `.upload`; `sbSign` supabase `.createSignedUrl`;
`pool` whether `DATABASE_URL` is configured; `dbInsertErr` the insert
outcome; `now` is `Date.now()` and `newId` the `uuidv4()` draw. -/
structure UploadEnv where
  fbBucket : Except String Unit
  fbStream : Except String Unit
  fbSign : Except String String
  sbClient : Bool
  sbBucketName : Option String
  sbUploadErr : Option String
  sbSign : Except String String
  pool : Bool
  dbInsertErr : Option String
  now : Nat
  newId : String

deriving Repr, DecidableEq

/-- The `POST /upload` handler of `src/server.js`, returning the response
and the trace of storage/database effects.  Firebase is tried first; only a
synchronous `getBucket()` throw reaches the Supabase fallback; a stream
error event answers 500 directly.  The Supabase success path requires
`project_id` and a configured database, then inserts one row and answers
with its id. -/
def uploadHandler (env : UploadEnv) (req : UploadReq) : HttpResponse × Effects :=
  match req.file with
  | none => (⟨400, { error := some "No file uploaded" }⟩, {})
  | some f =>
    let dest := toString env.now ++ "_" ++ f.originalname
    match env.fbBucket with
    | .ok _ =>
      match env.fbStream with
      | .error e => (⟨500, { error := some e }⟩, { fbWrite := true })
      | .ok _ =>
        match env.fbSign with
        | .ok u =>
          (⟨200, { name := some dest, url := some u }⟩,
           { fbWrite := true,
             signedUrlReqs := [⟨Backend.firebase, dest, (env.now + 60 * 60 * 1000 - env.now) / 1000⟩] })
        | .error e =>
          (⟨500, { error := some e }⟩,
           { fbWrite := true,
             signedUrlReqs := [⟨Backend.firebase, dest, (env.now + 60 * 60 * 1000 - env.now) / 1000⟩] })
    | .error fbErr =>
      if env.sbClient = false then
        (⟨500, { error := some fbErr }⟩, {})
      else if truthyStr env.sbBucketName = false then
        (⟨500, { error := some "SUPABASE_BUCKET not configured" }⟩, {})
      else
        match env.sbUploadErr with
        | some upErr => (⟨500, { error := some upErr }⟩, { sbWrite := true })
        | none =>
          match env.sbSign with
          | .error e =>
            (⟨500, { error := some e }⟩,
             { sbWrite := true, signedUrlReqs := [⟨Backend.supabase, dest, 60 * 60⟩] })
          | .ok signedUrl =>
            match jsStrOr req.project_id req.projectId with
            | none =>
              (⟨400, { error := some "project_id is required" }⟩,
               { sbWrite := true, signedUrlReqs := [⟨Backend.supabase, dest, 60 * 60⟩] })
            | some pid =>
              if env.pool = false then
                (⟨500, { error := some "DATABASE_URL not configured" }⟩,
                 { sbWrite := true, signedUrlReqs := [⟨Backend.supabase, dest, 60 * 60⟩] })
              else
                match env.dbInsertErr with
                | some dbErr =>
                  (⟨500, { error := some dbErr }⟩,
                   { sbWrite := true, signedUrlReqs := [⟨Backend.supabase, dest, 60 * 60⟩],
                     dbInserts := [⟨env.newId, pid, f.originalname, dest, "Upload", "pending", none⟩] })
                | none =>
                  (⟨200, { document_id := some env.newId, message := some "upload successfully",
                           name := some dest, url := some signedUrl }⟩,
                   { sbWrite := true, signedUrlReqs := [⟨Backend.supabase, dest, 60 * 60⟩],
                     dbInserts := [⟨env.newId, pid, f.originalname, dest, "Upload", "pending", none⟩] })

/-- One row of the `documents` table as `SELECT *` returns it. -/
structure DocRow where
  id : String
  project_id : String
  filename : Option String
  file_path : Option String
  source : Option String
  status : Option String
  document_content : Option String
  created_at : Nat

deriving Repr, DecidableEq

/-- Outcome of the preview route's `supabase.storage.createSignedUrl` call:
either the promise rejected (`threw`, caught and answered 500), or it
resolved to `{ data, error }`, with `url` the `data.signedUrl` field
(`none` when `data` is null or the field absent, `some ""` when falsy). -/
inductive SbSignResult
  | threw (msg : String)
  | returned (err : Option String) (url : Option String)

deriving Repr, DecidableEq

/-- `!signedErr && signedData && signedData.signedUrl`: the signed URL the
preview route actually uses, when that conjunction is truthy. -/
def signSuccessUrl : SbSignResult → Option String
  | .returned none (some u) => if u = "" then none else some u
  | _ => none

/-- Environment of the `GET /documents/scrape/:document_id` route: database
configuration and content, the supabase client/env configuration, the
outcome of its `createSignedUrl` call, and `FIREBASE_STORAGE_BUCKET`. -/
structure PreviewEnv where
  pool : Bool
  table : List DocRow
  sbClient : Bool
  supabaseUrl : Option String
  sbBucketName : Option String
  sbSign : SbSignResult
  fbStorageBucket : Option String

deriving Repr, DecidableEq

/-- The preview route derives a URL from Supabase only when the client, the
`SUPABASE_URL` env and the `SUPABASE_BUCKET` env are all configured. -/
def sbPreviewConfigured (env : PreviewEnv) : Bool :=
  env.sbClient && truthyStr env.supabaseUrl && truthyStr env.sbBucketName

/-- The public-object URL string the preview route builds when signing does
not yield a usable URL. -/
def sbPublicUrl (supabaseUrl bucket normalized : String) : String :=
  stripTrailingSlash supabaseUrl ++ "/storage/v1/object/public/" ++ bucket ++ "/"
    ++ encodeURIComponent normalized

/-- The public-style media URL the preview route builds for Firebase. -/
def fbMediaUrl (fbBucket normalized : String) : String :=
  "https://firebasestorage.googleapis.com/v0/b/" ++ fbBucket ++ "/o/"
    ++ encodeURIComponent normalized ++ "?alt=media"

/-- The `GET /documents/scrape/:document_id` handler of `src/documents.js`:
row lookup by id, integrity check on `filename`, then preview-URL
derivation — Supabase signed URL (3600 s) for the filename with leading
slashes stripped, public URL on signing failure, Firebase media URL when
Supabase is not configured, 500 when neither backend is. -/
def previewHandler (env : PreviewEnv) (docId : String) : HttpResponse × Effects :=
  if docId = "" then (⟨400, { error := some "document_id is required" }⟩, {})
  else if env.pool = false then
    (⟨500, { error := some "DATABASE_URL not configured" }⟩, {})
  else
    match env.table.filter (fun r => r.id == docId) with
    | [] => (⟨404, { error := some "document not found" }⟩, {})
    | doc :: _ =>
      let filename := doc.filename.getD ""
      if filename = "" then
        (⟨500, { error := some "Document filename not found in database" }⟩, {})
      else if sbPreviewConfigured env then
        let normalized := dropLeadingSlashes filename
        match env.sbSign with
        | .threw m =>
          (⟨500, { error := some ("Failed to generate preview URL: " ++ m) }⟩,
           { signedUrlReqs := [⟨Backend.supabase, normalized, 3600⟩] })
        | .returned err url =>
          match signSuccessUrl (.returned err url) with
          | some u =>
            (⟨200, { preview_url := some u }⟩,
             { signedUrlReqs := [⟨Backend.supabase, normalized, 3600⟩] })
          | none =>
            (⟨200, { preview_url :=
                       some (sbPublicUrl (env.supabaseUrl.getD "") (env.sbBucketName.getD "") normalized) }⟩,
             { signedUrlReqs := [⟨Backend.supabase, normalized, 3600⟩] })
      else if truthyStr env.fbStorageBucket then
        let normalized := dropLeadingSlashes filename
        (⟨200, { preview_url := some (fbMediaUrl (env.fbStorageBucket.getD "") normalized) }⟩, {})
      else
        (⟨500, { error := some "Storage not configured for preview URL generation" }⟩, {})

/-- One row of the summary route's aggregate query
`SELECT source, status, COUNT(*)::int AS count ... GROUP BY source, status`.
`count` is optional only to mirror the defensive `r.count || 0`. -/
structure AggRow where
  source : Option String
  status : Option String
  count : Option Nat

deriving Repr, DecidableEq

/-- The per-source accumulator `{ status: {...}, total }` of the summary
loop; the status map is an insertion-ordered association list, as a JS
object is. -/
structure SrcEntry where
  statusCounts : List (String × Nat)
  total : Nat

deriving Repr, DecidableEq

/-- The summary response:
`{ sources, total_processed, total_analysed, total }`. -/
structure SummaryState where
  sources : List (String × SrcEntry)
  total_processed : Nat
  total_analysed : Nat
  total : Nat

deriving Repr, DecidableEq

/-- `summary[src].status[status] = (summary[src].status[status] || 0) + cnt`:
add to an existing status key or append a new one. -/
def bumpStatus (k : String) (c : Nat) : List (String × Nat) → List (String × Nat)
  | [] => [(k, c)]
  | (s, n) :: rest =>
    if s = k then (s, n + c) :: rest else (s, n) :: bumpStatus k c rest

/-- Update the per-source map for one aggregate row: create the entry
`{ status: {}, total: 0 }` when the source key is new, then add the count
to its status bucket and total. -/
def bumpSource (src status : String) (c : Nat) :
    List (String × SrcEntry) → List (String × SrcEntry)
  | [] => [(src, ⟨[(status, c)], c⟩)]
  | (s, e) :: rest =>
    if s = src then (s, ⟨bumpStatus status c e.statusCounts, e.total + c⟩) :: rest
    else (s, e) :: bumpSource src status c rest

/-- The effective source label of an aggregate row: `r.source || 'unknown'`. -/
def effSource (r : AggRow) : String := jsOrDefault r.source "unknown"

/-- The effective status label of an aggregate row: `r.status || 'unknown'`. -/
def effStatus (r : AggRow) : String := jsOrDefault r.status "unknown"

/-- The count of an aggregate row: `r.count || 0`. -/
def rowCount (r : AggRow) : Nat := r.count.getD 0

/-- The body of the summary route's `for (const r of rows)` loop. -/
def summaryStep (st : SummaryState) (r : AggRow) : SummaryState :=
  let src := effSource r
  let status := effStatus r
  let cnt := rowCount r
  { sources := bumpSource src status cnt st.sources,
    total_processed :=
      st.total_processed + (if lowerStr status = "processed" then cnt else 0),
    total_analysed :=
      st.total_analysed +
        (if lowerStr status = "analysed" ∨ lowerStr status = "analyzed" then cnt else 0),
    total := st.total + cnt }

/-- The aggregation of `GET /documents/project/:project_id/summary` over the
rows the grouped query returned. -/
def getSummary (rows : List AggRow) : SummaryState :=
  rows.foldl summaryStep ⟨[], 0, 0, 0⟩

/-- `ORDER BY filename` comparison (ascending, SQL nulls last). -/
def optStrLe (a b : Option String) : Bool :=
  match a, b with
  | none, none => true
  | none, some _ => false
  | some _, none => true
  | some x, some y => decide (x ≤ y)

/-- Row comparison used by both listing queries' `ORDER BY filename`. -/
def fileLe (a b : DocRow) : Bool := optStrLe a.filename b.filename

/-- `lower(source) IN ('upload','other')`: SQL three-valued `IN` is not
satisfied by a NULL source. -/
def isUploadOrOtherSource : Option String → Bool
  | some s => lowerStr s == "upload" || lowerStr s == "other"
  | none => false

/-- `lower(source) = 'scrape'`, false on a NULL source. -/
def isScrapeSource : Option String → Bool
  | some s => lowerStr s == "scrape"
  | none => false

/-- The query of `GET /documents/project/:project_id/upload-or-other`:
`SELECT * FROM documents WHERE project_id = $1 AND lower(source) IN
('upload','other') ORDER BY filename`, over an explicit table. -/
def uploadOrOtherQuery (table : List DocRow) (pid : String) : List DocRow :=
  (table.filter (fun r => r.project_id == pid && isUploadOrOtherSource r.source)).mergeSort fileLe

/-- The projected row shape of the scraped listing:
`SELECT id, filename AS file_name, created_at, status`. -/
structure ScrapedRow where
  id : String
  file_name : Option String
  created_at : Nat
  status : Option String

deriving Repr, DecidableEq

/-- Column projection of the scraped listing. -/
def scrapedProjection (r : DocRow) : ScrapedRow :=
  ⟨r.id, r.filename, r.created_at, r.status⟩

/-- The query of `GET /documents/project/:project_id/scraped`:
`SELECT id, filename AS file_name, created_at, status FROM documents WHERE
project_id = $1 AND lower(source) = 'scrape' ORDER BY filename`. -/
def scrapedQuery (table : List DocRow) (pid : String) : List ScrapedRow :=
  ((table.filter (fun r => r.project_id == pid && isScrapeSource r.source)).mergeSort fileLe).map
    scrapedProjection

/-- A sample multipart file. -/
def exFile : UploadedFile := ⟨"a.pdf", "application/pdf", [1, 2, 3]⟩

/-- A request carrying the file and a `project_id`. -/
def exReqWithProject : UploadReq := ⟨some exFile, some "p1", none⟩

/-- A request carrying the file but no project id. -/
def exReqNoProject : UploadReq := ⟨some exFile, none, none⟩

/-- A request with no file attached. -/
def exReqNoFile : UploadReq := ⟨none, some "p1", none⟩

/-- Firebase configured but its stream write fails; Supabase fully
configured and healthy; database configured. -/
def streamFailEnv : UploadEnv :=
  ⟨.ok (), .error "boom", .ok "fb-url", true, some "bkt", none, .ok "signed-url",
   true, none, 123, "uuid-1"⟩

/-- Firebase unconfigured (`getBucket()` throws); Supabase fully configured
and healthy; database configured. -/
def fbDownEnv : UploadEnv :=
  ⟨.error "fb down", .ok (), .ok "fb-url", true, some "bkt", none, .ok "signed-url",
   true, none, 123, "uuid-1"⟩

/-- A row of the documents table as the preview examples use it. -/
def exDocRow : DocRow :=
  ⟨"d1", "p1", some "/reports/q1.pdf", some "123_q1.pdf", some "Scrape",
   some "pending", none, 7⟩

/-- Preview environment: database configured with one row, Supabase fully
configured, signing succeeds. -/
def exPreviewEnvOk : PreviewEnv :=
  ⟨true, [exDocRow], true, some "https://h.co/", some "bkt",
   .returned none (some "signed-preview"), some "fbb"⟩

/-- Same, but the signing call returns an error. -/
def exPreviewEnvSignErr : PreviewEnv :=
  ⟨true, [exDocRow], true, some "https://h.co/", some "bkt",
   .returned (some "sign failed") none, some "fbb"⟩

/-- Overwrite the `file_path` column of a row, leaving every other column
unchanged. -/
def setFilePath (g : DocRow → Option String) (r : DocRow) : DocRow :=
  { r with file_path := g r }

/-- Sum of the per-status counts of one source entry. -/
def statusSum (l : List (String × Nat)) : Nat := (l.map (fun p => p.2)).sum

/-- Sum of the per-source totals. -/
def sourceTotalsSum (l : List (String × SrcEntry)) : Nat :=
  (l.map (fun p => p.2.total)).sum

/-- The total recorded under source key `k`, `0` when the key is absent. -/
def assocTotal (l : List (String × SrcEntry)) (k : String) : Nat :=
  match l.find? (fun p => p.1 == k) with
  | some p => p.2.total
  | none => 0

/-- The spec's worked example plus one null-source, null-status row. -/
def exAggRows : List AggRow :=
  [⟨some "A", some "processed", some 3⟩, ⟨some "A", some "analysed", some 2⟩,
   ⟨some "B", some "pending", some 1⟩, ⟨none, none, some 4⟩]

/-- Sample rows for the listing examples. -/
def exRowUp : DocRow :=
  ⟨"u1", "p1", some "b.pdf", some "1_b.pdf", some "Upload", some "pending", none, 1⟩

/-- A scraped row of the same project. -/
def exRowScrape : DocRow :=
  ⟨"s1", "p1", some "a.html", some "a.html", some "Scrape", some "processed", none, 2⟩

/-- An `Other`-source row of a different project. -/
def exRowOther : DocRow :=
  ⟨"o1", "p2", some "c.txt", none, some "Other", none, none, 3⟩

/-- A three-row documents table. -/
def exTable : List DocRow := [exRowUp, exRowScrape, exRowOther]

/-! ## Theorems -/

/-- **C1** — counterexample.  The claim says every Primary (Firebase)
storage-write failure falls through to the Fallback when one is configured.
In `streamFailEnv` the Firebase client is obtained, the stream write fails
(`boom`), and Supabase is fully configured — yet the handler surfaces the
Primary error as a 500 and never attempts the Fallback write. -/
theorem C1_upload_counterexample :
    streamFailEnv.sbClient = true ∧
    truthyStr streamFailEnv.sbBucketName = true ∧
    streamFailEnv.fbStream = .error "boom" ∧
    (uploadHandler streamFailEnv exReqWithProject).1 = ⟨500, { error := some "boom" }⟩ ∧
    (uploadHandler streamFailEnv exReqWithProject).2.sbWrite = false := by
  refine ⟨rfl, rfl, rfl, ?_, rfl⟩
  rfl

/-- **C1** (amended).  The fall-through to the Fallback happens exactly for
a synchronous failure to obtain the Primary client (unconfigured or
uninitialized): then, with the Fallback configured, the Fallback write is
attempted.  When the Primary client is obtained but its stream write fails
asynchronously, the Primary error is surfaced as a 500 and the Fallback is
never attempted, even when configured. -/
theorem C1_upload_fallback_amended (env : UploadEnv) (req : UploadReq)
    (f : UploadedFile) (hf : req.file = some f) :
    (∀ e, env.fbBucket = .error e → env.sbClient = true →
      truthyStr env.sbBucketName = true →
      (uploadHandler env req).2.sbWrite = true) ∧
    (∀ e, env.fbBucket = .ok () → env.fbStream = .error e →
      (uploadHandler env req).1 = ⟨500, { error := some e }⟩ ∧
      (uploadHandler env req).2.sbWrite = false) := by
  constructor
  · intro e h1 h2 h3
    simp only [uploadHandler, hf, h1, h2, h3]
    simp only [Bool.true_eq_false, if_false]
    rcases h4 : env.sbUploadErr with _ | upErr
    · rcases h5 : env.sbSign with e5 | u5
      · simp
      · rcases h6 : jsStrOr req.project_id req.projectId with _ | p6
        · simp
        · rcases h7 : env.pool with _ | _ <;>
            rcases h8 : env.dbInsertErr with _ | d8 <;> simp
    · simp
  · intro e h1 h2
    simp only [uploadHandler, hf, h1, h2]
    simp

/-- **C1** witness: in `fbDownEnv` (Primary unconfigured) the Fallback write
happens; in `streamFailEnv` (Primary stream error) the 500 carries the
Primary error. -/
theorem C1_upload_fallback_amended_witness :
    (uploadHandler fbDownEnv exReqWithProject).2.sbWrite = true ∧
    (uploadHandler streamFailEnv exReqWithProject).1 = ⟨500, { error := some "boom" }⟩ := by
  constructor
  · exact (C1_upload_fallback_amended fbDownEnv exReqWithProject exFile rfl).1
      "fb down" rfl rfl rfl
  · exact ((C1_upload_fallback_amended streamFailEnv exReqWithProject exFile rfl).2
      "boom" rfl rfl).1

/-- **C2**.  When the Fallback write and signed-URL generation succeed, a
project id is supplied, the database is configured and the insert succeeds,
exactly one row is inserted, with `source = "Upload"`, `status = "pending"`,
`document_content = null` and `file_path` equal to the stored key
`<timestamp>_<originalName>`, and the 200 body carries that row's id, the
message `upload successfully`, the stored key as `name` and the signed
url. -/
theorem C2_upload_fallback_insert (env : UploadEnv) (req : UploadReq)
    (f : UploadedFile) (e p u : String)
    (hf : req.file = some f) (hfb : env.fbBucket = .error e)
    (hcl : env.sbClient = true) (hbk : truthyStr env.sbBucketName = true)
    (hup : env.sbUploadErr = none) (hsg : env.sbSign = .ok u)
    (hp : jsStrOr req.project_id req.projectId = some p)
    (hpool : env.pool = true) (hdb : env.dbInsertErr = none) :
    (uploadHandler env req).2.dbInserts =
      [⟨env.newId, p, f.originalname, toString env.now ++ "_" ++ f.originalname,
        "Upload", "pending", none⟩] ∧
    (uploadHandler env req).1 =
      ⟨200, { document_id := some env.newId, message := some "upload successfully",
              name := some (toString env.now ++ "_" ++ f.originalname),
              url := some u }⟩ := by
  simp only [uploadHandler, hf, hfb, hcl, hbk, hup, hsg, hp, hpool]
  simp only [Bool.true_eq_false, if_false, hdb]
  simp

/-- **C2** witness at `fbDownEnv`. -/
theorem C2_upload_fallback_insert_witness :
    (uploadHandler fbDownEnv exReqWithProject).2.dbInserts =
      [⟨"uuid-1", "p1", "a.pdf", "123_a.pdf", "Upload", "pending", none⟩] ∧
    (uploadHandler fbDownEnv exReqWithProject).1 =
      ⟨200, { document_id := some "uuid-1", message := some "upload successfully",
              name := some "123_a.pdf", url := some "signed-url" }⟩ := by
  exact C2_upload_fallback_insert fbDownEnv exReqWithProject exFile
    "fb down" "p1" "signed-url" rfl rfl rfl rfl rfl rfl rfl rfl rfl

/-- **C3**.  When the Fallback write and signed-URL generation succeed but
no project id was supplied, the response is a 400, yet the Fallback write
and the signed-URL request have already happened; no compensating deletion
and no database insert occur. -/
theorem C3_upload_missing_project_id (env : UploadEnv) (req : UploadReq)
    (f : UploadedFile) (e u : String)
    (hf : req.file = some f) (hfb : env.fbBucket = .error e)
    (hcl : env.sbClient = true) (hbk : truthyStr env.sbBucketName = true)
    (hup : env.sbUploadErr = none) (hsg : env.sbSign = .ok u)
    (hp : jsStrOr req.project_id req.projectId = none) :
    (uploadHandler env req).1.status = 400 ∧
    (uploadHandler env req).2.sbWrite = true ∧
    (uploadHandler env req).2.signedUrlReqs =
      [⟨Backend.supabase, toString env.now ++ "_" ++ f.originalname, 60 * 60⟩] ∧
    (uploadHandler env req).2.objectDeletes = 0 ∧
    (uploadHandler env req).2.dbInserts = [] := by
  simp only [uploadHandler, hf, hfb, hcl, hbk, hup, hsg, hp]
  simp only [Bool.true_eq_false, if_false]
  simp

/-- **C3** witness. -/
theorem C3_upload_missing_project_id_witness :
    (uploadHandler fbDownEnv exReqNoProject).1.status = 400 ∧
    (uploadHandler fbDownEnv exReqNoProject).2.sbWrite = true ∧
    (uploadHandler fbDownEnv exReqNoProject).2.signedUrlReqs =
      [⟨Backend.supabase, "123_a.pdf", 60 * 60⟩] ∧
    (uploadHandler fbDownEnv exReqNoProject).2.objectDeletes = 0 ∧
    (uploadHandler fbDownEnv exReqNoProject).2.dbInserts = [] := by
  have h := C3_upload_missing_project_id fbDownEnv exReqNoProject exFile
    "fb down" "signed-url" rfl rfl rfl rfl rfl rfl rfl
  simpa using h

/-- **C6**.  Per upload request: never both backend writes (the Fallback is
attempted only when obtaining the Primary client failed); at most one
database insert; an insert implies the Fallback write succeeded
(`sbWrite` with no upload error); the Primary path never inserts. -/
theorem C6_upload_single_backend_single_insert (env : UploadEnv) (req : UploadReq) :
    (¬((uploadHandler env req).2.fbWrite = true ∧
       (uploadHandler env req).2.sbWrite = true)) ∧
    ((uploadHandler env req).2.sbWrite = true → ∃ e, env.fbBucket = .error e) ∧
    (uploadHandler env req).2.dbInserts.length ≤ 1 ∧
    ((uploadHandler env req).2.dbInserts ≠ [] →
      (uploadHandler env req).2.sbWrite = true ∧ env.sbUploadErr = none) ∧
    ((uploadHandler env req).2.fbWrite = true →
      (uploadHandler env req).2.dbInserts = []) := by
  rcases req with ⟨_ | f, p1, p2⟩
  · simp [uploadHandler]
  · unfold uploadHandler
    rcases h1 : env.fbBucket with e1 | u1
    · simp only []
      rcases h2 : env.sbClient with _ | _
      · simp
      · simp only [Bool.true_eq_false, if_false]
        rcases h3 : truthyStr env.sbBucketName with _ | _
        · simp
        · simp only [Bool.true_eq_false, if_false]
          rcases h4 : env.sbUploadErr with _ | e4
          · rcases h5 : env.sbSign with e5 | u5
            · simp
            · rcases h6 : jsStrOr p1 p2 with _ | p6
              · simp [h6]
              · simp only [h6]
                rcases h7 : env.pool with _ | _
                · simp
                · simp only [Bool.true_eq_false, if_false]
                  rcases h8 : env.dbInsertErr with _ | e8 <;> simp
          · simp
    · rcases h2 : env.fbStream with e2 | u2
      · simp
      · rcases h3 : env.fbSign with e3 | u3 <;> simp

/-- **C6** witness: on the Fallback success path both write flags are never
set together, the Primary client failure is exhibited, and the single insert
is tied to the Fallback success. -/
theorem C6_upload_single_backend_single_insert_witness :
    (¬((uploadHandler fbDownEnv exReqWithProject).2.fbWrite = true ∧
       (uploadHandler fbDownEnv exReqWithProject).2.sbWrite = true)) ∧
    (∃ e, fbDownEnv.fbBucket = .error e) ∧
    (uploadHandler fbDownEnv exReqWithProject).2.dbInserts.length ≤ 1 := by
  have h := C6_upload_single_backend_single_insert fbDownEnv exReqWithProject
  exact ⟨h.1, h.2.1 (by decide), h.2.2.1⟩

/-- Structure of the preview route's signed-URL trace: either no request,
or exactly one Supabase request with a 3600-second expiry. -/
theorem previewHandler_signedUrlReqs_shape (env : PreviewEnv) (docId : String) :
    (previewHandler env docId).2.signedUrlReqs = [] ∨
    ∃ p, (previewHandler env docId).2.signedUrlReqs =
      [⟨Backend.supabase, p, 3600⟩] := by
  unfold previewHandler
  dsimp only
  repeat' split
  all_goals simp

/-- **C8**.  Every signed-URL request either route ever makes — the Primary
upload path (`expires: Date.now() + 60*60*1000`, i.e. 3600 s from now), the
Fallback upload path (`createSignedUrl(path, 60*60)`) and the preview
derivation (`createSignedUrl(normalized, 3600)`) — carries an expiry of
exactly 3600 seconds. -/
theorem C8_signed_url_expiry_3600 (env : UploadEnv) (req : UploadReq)
    (penv : PreviewEnv) (docId : String) :
    (∀ s ∈ (uploadHandler env req).2.signedUrlReqs, s.expiresInSeconds = 3600) ∧
    (∀ s ∈ (previewHandler penv docId).2.signedUrlReqs, s.expiresInSeconds = 3600) := by
  constructor
  · unfold uploadHandler
    repeat' split
    all_goals simp_all
  · intro s hs
    rcases previewHandler_signedUrlReqs_shape penv docId with h | ⟨p, h⟩ <;>
      rw [h] at hs <;> simp_all

/-- **C8** witness: the concrete Fallback upload makes exactly one
signed-URL request and its expiry is 3600 s. -/
theorem C8_signed_url_expiry_3600_witness :
    ((uploadHandler fbDownEnv exReqWithProject).2.signedUrlReqs.headD
      ⟨Backend.supabase, "", 0⟩).expiresInSeconds = 3600 := by
  exact (C8_signed_url_expiry_3600 fbDownEnv exReqWithProject
      ⟨true, [], true, some "u", some "b", .returned none none, none⟩ "d").1
    _ (by decide)

/-- **C9**.  An upload request with no file attached is answered 400 with
no storage write, no signed-URL request, no database insert and no
deletion. -/
theorem C9_upload_no_file (env : UploadEnv) (req : UploadReq)
    (h : req.file = none) :
    (uploadHandler env req).1 = ⟨400, { error := some "No file uploaded" }⟩ ∧
    (uploadHandler env req).2 = {} := by
  simp [uploadHandler, h]

/-- **C9** witness. -/
theorem C9_upload_no_file_witness :
    (uploadHandler fbDownEnv exReqNoFile).1 =
      ⟨400, { error := some "No file uploaded" }⟩ ∧
    (uploadHandler fbDownEnv exReqNoFile).2 = {} := by
  exact C9_upload_no_file fbDownEnv exReqNoFile rfl

/-- The sign outcome yields a usable URL only in the
`returned`-without-error shape, and the URL is that non-empty string. -/
theorem signSuccessUrl_eq_some {r : SbSignResult} {u : String}
    (h : signSuccessUrl r = some u) :
    r = .returned none (some u) ∧ u ≠ "" := by
  rcases r with m | ⟨err, url⟩
  · simp [signSuccessUrl] at h
  · rcases err with _ | e
    · rcases url with _ | v
      · simp [signSuccessUrl] at h
      · by_cases hv : v = "" <;> simp [signSuccessUrl, hv] at h
        simp_all
    · simp [signSuccessUrl] at h

/-- **C4**.  The preview route: unknown id is a 404; empty filename is a
500 integrity error; otherwise, with Supabase configured the route requests
a signed URL (3600 s) for the filename with leading slashes stripped and
answers with it on success, falling back on a returned signing failure to
the public object URL built from the same normalized, percent-encoded path;
with Supabase unconfigured but a Firebase bucket set it answers the
public-style media URL; with neither it answers a configuration 500. -/
theorem C4_preview_url_precedence (env : PreviewEnv) (docId : String)
    (hid : docId ≠ "") (hpool : env.pool = true) :
    (env.table.filter (fun r => r.id == docId) = [] →
      (previewHandler env docId).1 =
        ⟨404, { error := some "document not found" }⟩) ∧
    (∀ doc rest, env.table.filter (fun r => r.id == docId) = doc :: rest →
      (doc.filename.getD "" = "" →
        (previewHandler env docId).1 =
          ⟨500, { error := some "Document filename not found in database" }⟩) ∧
      (doc.filename.getD "" ≠ "" →
        (sbPreviewConfigured env = true →
          (∀ u, signSuccessUrl env.sbSign = some u →
            (previewHandler env docId).1 = ⟨200, { preview_url := some u }⟩ ∧
            (previewHandler env docId).2.signedUrlReqs =
              [⟨Backend.supabase,
                dropLeadingSlashes (doc.filename.getD ""), 3600⟩]) ∧
          (∀ err url, env.sbSign = .returned err url →
            signSuccessUrl env.sbSign = none →
            (previewHandler env docId).1 =
              ⟨200, { preview_url := some (sbPublicUrl (env.supabaseUrl.getD "")
                (env.sbBucketName.getD "")
                (dropLeadingSlashes (doc.filename.getD ""))) }⟩ ∧
            (previewHandler env docId).2.signedUrlReqs =
              [⟨Backend.supabase,
                dropLeadingSlashes (doc.filename.getD ""), 3600⟩])) ∧
        (sbPreviewConfigured env = false →
          truthyStr env.fbStorageBucket = true →
          (previewHandler env docId).1 =
            ⟨200, { preview_url := some (fbMediaUrl (env.fbStorageBucket.getD "")
              (dropLeadingSlashes (doc.filename.getD ""))) }⟩) ∧
        (sbPreviewConfigured env = false →
          truthyStr env.fbStorageBucket = false →
          (previewHandler env docId).1 =
            ⟨500, { error := some "Storage not configured for preview URL generation" }⟩))) := by
  constructor
  · intro hfilt
    simp [previewHandler, hid, hpool, hfilt]
  · intro doc rest hfilt
    constructor
    · intro hfn
      simp [previewHandler, hid, hpool, hfilt, hfn]
    · intro hfn
      refine ⟨fun hcfg => ⟨?_, ?_⟩, ?_, ?_⟩
      · intro u hu
        obtain ⟨hr, _⟩ := signSuccessUrl_eq_some hu
        rw [hr] at hu
        simp [previewHandler, hid, hpool, hfilt, hfn, hcfg, hr, hu]
      · intro err url hr hnone
        rw [hr] at hnone
        simp [previewHandler, hid, hpool, hfilt, hfn, hcfg, hr, hnone]
      · intro hcfg hfb
        simp [previewHandler, hid, hpool, hfilt, hfn, hcfg, hfb]
      · intro hcfg hfb
        simp [previewHandler, hid, hpool, hfilt, hfn, hcfg, hfb]

/-- **C4** witness: on the concrete one-row table, signing success yields
the signed URL with one 3600 s request, and a returned signing failure
yields the public URL for the same normalized, percent-encoded path. -/
theorem C4_preview_url_precedence_witness :
    (previewHandler exPreviewEnvOk "d1").1 =
      ⟨200, { preview_url := some "signed-preview" }⟩ ∧
    (previewHandler exPreviewEnvOk "d1").2.signedUrlReqs =
      [⟨Backend.supabase, "reports/q1.pdf", 3600⟩] ∧
    (previewHandler exPreviewEnvSignErr "d1").1 =
      ⟨200,
       { preview_url :=
           some "https://h.co/storage/v1/object/public/bkt/reports%2Fq1.pdf" }⟩ := by
  have h1 := C4_preview_url_precedence exPreviewEnvOk "d1" (by decide) rfl
  have h2 := C4_preview_url_precedence exPreviewEnvSignErr "d1" (by decide) rfl
  have k1 := (((h1.2 exDocRow [] (by decide)).2 (by decide)).1 (by decide)).1
    "signed-preview" (by decide)
  have k2 := (((h2.2 exDocRow [] (by decide)).2 (by decide)).1 (by decide)).2
    (some "sign failed") none (by decide) (by decide)
  refine ⟨?_, ?_, ?_⟩
  · exact k1.1
  · have : dropLeadingSlashes (exDocRow.filename.getD "") = "reports/q1.pdf" := by decide
    rw [k1.2, this]
  · have heq : sbPublicUrl (exPreviewEnvSignErr.supabaseUrl.getD "")
        (exPreviewEnvSignErr.sbBucketName.getD "")
        (dropLeadingSlashes (exDocRow.filename.getD "")) =
        "https://h.co/storage/v1/object/public/bkt/reports%2Fq1.pdf" := by decide
    rw [k2.1, heq]

/-- Normalization never lengthens a string. -/
theorem dropLeadingSlashes_length_le (s : String) :
    (dropLeadingSlashes s).length ≤ s.length := by
  have h := (List.dropWhile_sublist (l := s.data)
    (p := fun c => c.toNat == 47)).length_le
  calc (dropLeadingSlashes s).length
      = (s.data.dropWhile (fun c => c.toNat == 47)).length := String.length_mk _
    _ ≤ s.data.length := h
    _ = s.length := rfl

/-- When the row lookup yields `doc`, every signed-URL request the preview
route makes names the path `dropLeadingSlashes doc.filename`. -/
theorem previewHandler_signed_path (env : PreviewEnv) (docId : String)
    (doc : DocRow) (rest : List DocRow)
    (hfilt : env.table.filter (fun r => r.id == docId) = doc :: rest) :
    (previewHandler env docId).2.signedUrlReqs = [] ∨
    (previewHandler env docId).2.signedUrlReqs =
      [⟨Backend.supabase, dropLeadingSlashes (doc.filename.getD ""), 3600⟩] := by
  unfold previewHandler
  dsimp only
  rw [hfilt]
  dsimp only
  repeat' split
  all_goals simp

/-- **C10**.  The preview route derives its path exclusively from the
`filename` column: rewriting `file_path` arbitrarily never changes the
response or the effects.  Meanwhile the upload route inserts rows whose
`file_path` is `<timestamp>_<filename>`, a strictly longer string than
`filename`; hence for such rows every preview signed-URL request names a
path (`dropLeadingSlashes filename`) different from the storage key under
which the bytes were written. -/
theorem C10_preview_ignores_file_path (env : PreviewEnv) (docId : String) :
    (∀ g, previewHandler { env with table := env.table.map (setFilePath g) } docId =
      previewHandler env docId) ∧
    (∀ uenv req, ∀ ins ∈ (uploadHandler uenv req).2.dbInserts,
      ins.file_path = toString uenv.now ++ "_" ++ ins.filename ∧
      ins.file_path ≠ ins.filename) ∧
    (∀ doc rest, env.table.filter (fun r => r.id == docId) = doc :: rest →
      ∀ (n : String) (ts : Nat), doc.filename = some n →
        doc.file_path = some (toString ts ++ "_" ++ n) →
        ∀ s ∈ (previewHandler env docId).2.signedUrlReqs,
          s.path = dropLeadingSlashes n ∧
          doc.file_path ≠ some s.path) := by
  refine ⟨?_, ?_, ?_⟩
  · intro g
    have hfl : (env.table.map (setFilePath g)).filter (fun r => r.id == docId) =
        (env.table.filter (fun r => r.id == docId)).map (setFilePath g) := by
      rw [List.filter_map]
      rfl
    rcases h : env.table.filter (fun r => r.id == docId) with _ | ⟨doc, rest⟩
    · unfold previewHandler
      dsimp only
      rw [hfl, h]
      rfl
    · unfold previewHandler
      dsimp only
      rw [hfl, h]
      rfl
  · intro uenv req ins hins
    have hshape : ins.file_path = toString uenv.now ++ "_" ++ ins.filename := by
      revert hins
      unfold uploadHandler
      repeat' split
      all_goals intro hins
      all_goals simp_all
    refine ⟨hshape, ?_⟩
    rw [hshape]
    intro hcontra
    have hlen := congrArg String.length hcontra
    rw [String.length_append, String.length_append] at hlen
    have h1 : ("_" : String).length = 1 := by decide
    omega
  · intro doc rest hfilt n ts hn hp s hs
    rcases previewHandler_signed_path env docId doc rest hfilt with h | h
    · rw [h] at hs
      simp at hs
    · rw [h] at hs
      simp only [List.mem_singleton] at hs
      subst hs
      constructor
      · simp [hn]
      · rw [hp]
        simp only [hn, Option.getD_some, Option.some.injEq]
        intro hcontra
        have hle := dropLeadingSlashes_length_le n
        have hlen := congrArg String.length (Option.some.inj hcontra)
        rw [String.length_append, String.length_append] at hlen
        have h1 : ("_" : String).length = 1 := by decide
        omega

/-- **C10** witness: the concrete row stored by an upload (`filename`
`/reports/q1.pdf`, key `123_q1.pdf`) gets previewed under the normalized
filename, not the storage key, and rewriting `file_path` changes nothing. -/
theorem C10_preview_ignores_file_path_witness :
    previewHandler
        { exPreviewEnvOk with
            table := exPreviewEnvOk.table.map (setFilePath fun _ => some "other") }
        "d1" =
      previewHandler exPreviewEnvOk "d1" ∧
    ((uploadHandler fbDownEnv exReqWithProject).2.dbInserts.headD
        ⟨"", "", "", "", "", "", none⟩).file_path ≠
      ((uploadHandler fbDownEnv exReqWithProject).2.dbInserts.headD
        ⟨"", "", "", "", "", "", none⟩).filename := by
  have h := C10_preview_ignores_file_path exPreviewEnvOk "d1"
  refine ⟨h.1 (fun _ => some "other"), ?_⟩
  exact (h.2.1 fbDownEnv exReqWithProject _ (by decide)).2

/-- `assocTotal` of a cons whose key matches. -/
theorem assocTotal_cons_eq (s k : String) (e : SrcEntry)
    (m : List (String × SrcEntry)) (h : s = k) :
    assocTotal ((s, e) :: m) k = e.total := by
  unfold assocTotal
  rw [List.find?_cons_of_pos]
  simp [h]

/-- `assocTotal` of a cons whose key differs. -/
theorem assocTotal_cons_ne (s k : String) (e : SrcEntry)
    (m : List (String × SrcEntry)) (h : s ≠ k) :
    assocTotal ((s, e) :: m) k = assocTotal m k := by
  unfold assocTotal
  rw [List.find?_cons_of_neg]
  simp [h]

/-- `bumpStatus` adds exactly `c` to the status-count sum. -/
theorem statusSum_bumpStatus (k : String) (c : Nat) (l : List (String × Nat)) :
    statusSum (bumpStatus k c l) = statusSum l + c := by
  induction l with
  | nil => simp [bumpStatus, statusSum]
  | cons p rest ih =>
    rcases p with ⟨s, n⟩
    by_cases h : s = k
    · rw [show bumpStatus k c ((s, n) :: rest) = (s, n + c) :: rest from by
        simp [bumpStatus, h]]
      simp [statusSum]
      omega
    · rw [show bumpStatus k c ((s, n) :: rest) = (s, n) :: bumpStatus k c rest from by
        simp [bumpStatus, h]]
      simp only [statusSum, List.map_cons, List.sum_cons] at ih ⊢
      omega

/-- `bumpSource` adds exactly `c` to the per-source totals sum. -/
theorem sourceTotalsSum_bumpSource (src st : String) (c : Nat)
    (l : List (String × SrcEntry)) :
    sourceTotalsSum (bumpSource src st c l) = sourceTotalsSum l + c := by
  induction l with
  | nil => simp [bumpSource, sourceTotalsSum]
  | cons p rest ih =>
    rcases p with ⟨s, e⟩
    by_cases h : s = src
    · rw [show bumpSource src st c ((s, e) :: rest) =
          (s, ⟨bumpStatus st c e.statusCounts, e.total + c⟩) :: rest from by
        simp [bumpSource, h]]
      simp [sourceTotalsSum]
      omega
    · rw [show bumpSource src st c ((s, e) :: rest) =
          (s, e) :: bumpSource src st c rest from by simp [bumpSource, h]]
      simp only [sourceTotalsSum, List.map_cons, List.sum_cons] at ih ⊢
      omega

/-- `bumpSource` preserves the per-entry invariant
`total = sum of status counts`. -/
theorem bumpSource_entry_invariant (src st : String) (c : Nat)
    (l : List (String × SrcEntry))
    (h : ∀ p ∈ l, p.2.total = statusSum p.2.statusCounts) :
    ∀ p ∈ bumpSource src st c l, p.2.total = statusSum p.2.statusCounts := by
  induction l with
  | nil =>
    intro p hp
    simp only [bumpSource, List.mem_singleton] at hp
    subst hp
    simp [statusSum]
  | cons q rest ih =>
    rcases q with ⟨s, e⟩
    intro p hp
    by_cases hq : s = src
    · rw [show bumpSource src st c ((s, e) :: rest) =
          (s, ⟨bumpStatus st c e.statusCounts, e.total + c⟩) :: rest from by
        simp [bumpSource, hq]] at hp
      rcases List.mem_cons.mp hp with hp | hp
      · subst hp
        have he := h (s, e) (List.mem_cons_self _ _)
        simp only [statusSum_bumpStatus]
        simp only at he ⊢
        omega
      · exact h p (List.mem_cons_of_mem _ hp)
    · rw [show bumpSource src st c ((s, e) :: rest) =
          (s, e) :: bumpSource src st c rest from by simp [bumpSource, hq]] at hp
      rcases List.mem_cons.mp hp with hp | hp
      · subst hp
        exact h (s, e) (List.mem_cons_self _ _)
      · exact ih (fun x hx => h x (List.mem_cons_of_mem _ hx)) p hp

/-- `bumpSource` adds `c` to the bucket of `src` and leaves every other
bucket unchanged. -/
theorem assocTotal_bumpSource (src st : String) (c : Nat)
    (l : List (String × SrcEntry)) (k : String) :
    assocTotal (bumpSource src st c l) k =
      assocTotal l k + (if src = k then c else 0) := by
  induction l with
  | nil =>
    by_cases h : src = k
    · rw [show bumpSource src st c [] = [(src, ⟨[(st, c)], c⟩)] from rfl,
        assocTotal_cons_eq _ _ _ _ h]
      simp [assocTotal, h]
    · rw [show bumpSource src st c [] = [(src, ⟨[(st, c)], c⟩)] from rfl,
        assocTotal_cons_ne _ _ _ _ h]
      simp [assocTotal, h]
  | cons q rest ih =>
    rcases q with ⟨s, e⟩
    by_cases hq : s = src
    · rw [show bumpSource src st c ((s, e) :: rest) =
          (s, ⟨bumpStatus st c e.statusCounts, e.total + c⟩) :: rest from by
        simp [bumpSource, hq]]
      by_cases hk : s = k
      · rw [assocTotal_cons_eq _ _ _ _ hk, assocTotal_cons_eq _ _ _ _ hk]
        have : src = k := hq ▸ hk
        simp [this]
      · rw [assocTotal_cons_ne _ _ _ _ hk, assocTotal_cons_ne _ _ _ _ hk]
        have : src ≠ k := fun hc => hk (hq.trans hc)
        simp [this]
    · rw [show bumpSource src st c ((s, e) :: rest) =
          (s, e) :: bumpSource src st c rest from by simp [bumpSource, hq]]
      by_cases hk : s = k
      · rw [assocTotal_cons_eq _ _ _ _ hk, assocTotal_cons_eq _ _ _ _ hk]
        have : src ≠ k := fun hc => hq (hk.trans hc.symm)
        simp [this]
      · rw [assocTotal_cons_ne _ _ _ _ hk, assocTotal_cons_ne _ _ _ _ hk, ih]

/-- Folding the summary loop adds the row counts to `total`. -/
theorem summary_foldl_total (rows : List AggRow) (st : SummaryState) :
    (rows.foldl summaryStep st).total = st.total + (rows.map rowCount).sum := by
  induction rows generalizing st with
  | nil => simp
  | cons r rest ih =>
    simp only [List.foldl_cons, List.map_cons, List.sum_cons, ih, summaryStep]
    omega

/-- Folding the summary loop adds the row counts to the per-source totals
sum. -/
theorem summary_foldl_sourceTotalsSum (rows : List AggRow) (st : SummaryState) :
    sourceTotalsSum (rows.foldl summaryStep st).sources =
      sourceTotalsSum st.sources + (rows.map rowCount).sum := by
  induction rows generalizing st with
  | nil => simp
  | cons r rest ih =>
    simp only [List.foldl_cons, List.map_cons, List.sum_cons, ih, summaryStep,
      sourceTotalsSum_bumpSource]
    omega

/-- Folding the summary loop preserves the per-entry invariant. -/
theorem summary_foldl_entries (rows : List AggRow) (st : SummaryState)
    (h : ∀ p ∈ st.sources, p.2.total = statusSum p.2.statusCounts) :
    ∀ p ∈ (rows.foldl summaryStep st).sources,
      p.2.total = statusSum p.2.statusCounts := by
  induction rows generalizing st with
  | nil => exact h
  | cons r rest ih =>
    simp only [List.foldl_cons]
    exact ih _ (bumpSource_entry_invariant _ _ _ _ h)

/-- Folding the summary loop adds to `total_processed` exactly the counts
of rows whose effective status lower-cases to `processed`. -/
theorem summary_foldl_processed (rows : List AggRow) (st : SummaryState) :
    (rows.foldl summaryStep st).total_processed =
      st.total_processed +
        ((rows.filter (fun r => lowerStr (effStatus r) == "processed")).map
          rowCount).sum := by
  induction rows generalizing st with
  | nil => simp
  | cons r rest ih =>
    by_cases h : lowerStr (effStatus r) = "processed"
    all_goals simp [h, ih, summaryStep]
    all_goals omega

/-- Folding the summary loop adds to `total_analysed` exactly the counts of
rows whose effective status lower-cases to `analysed` or `analyzed`. -/
theorem summary_foldl_analysed (rows : List AggRow) (st : SummaryState) :
    (rows.foldl summaryStep st).total_analysed =
      st.total_analysed +
        ((rows.filter (fun r =>
          lowerStr (effStatus r) == "analysed" ||
          lowerStr (effStatus r) == "analyzed")).map rowCount).sum := by
  induction rows generalizing st with
  | nil => simp
  | cons r rest ih =>
    by_cases h1 : lowerStr (effStatus r) = "analysed"
    all_goals by_cases h2 : lowerStr (effStatus r) = "analyzed"
    all_goals simp [h1, h2, ih, summaryStep]
    all_goals omega

/-- Folding the summary loop adds to bucket `k` exactly the counts of rows
whose effective source is `k`. -/
theorem summary_foldl_assocTotal (rows : List AggRow) (st : SummaryState)
    (k : String) :
    assocTotal (rows.foldl summaryStep st).sources k =
      assocTotal st.sources k +
        ((rows.filter (fun r => effSource r == k)).map rowCount).sum := by
  induction rows generalizing st with
  | nil => simp
  | cons r rest ih =>
    by_cases h : effSource r = k
    all_goals simp [h, ih, summaryStep, assocTotal_bumpSource]
    all_goals omega

/-- **C5**.  For any multiset of aggregate rows: the grand total is the sum
of all row counts and equals the sum of per-source totals; each per-source
total is the sum of that source's per-status counts; `total_processed`
(resp. `total_analysed`) sums exactly the rows whose effective status
lower-cases to `processed` (resp. `analysed`/`analyzed`); and each source
bucket `k` — in particular the literal `unknown` bucket that receives
null/absent sources — holds exactly the counts of the rows whose effective
source (`r.source || 'unknown'`) is `k`. -/
theorem C5_summary_invariants (rows : List AggRow) :
    (getSummary rows).total = (rows.map rowCount).sum ∧
    (getSummary rows).total = sourceTotalsSum (getSummary rows).sources ∧
    (∀ p ∈ (getSummary rows).sources, p.2.total = statusSum p.2.statusCounts) ∧
    (getSummary rows).total_processed =
      ((rows.filter (fun r => lowerStr (effStatus r) == "processed")).map
        rowCount).sum ∧
    (getSummary rows).total_analysed =
      ((rows.filter (fun r =>
        lowerStr (effStatus r) == "analysed" ||
        lowerStr (effStatus r) == "analyzed")).map rowCount).sum ∧
    (∀ k, assocTotal (getSummary rows).sources k =
      ((rows.filter (fun r => effSource r == k)).map rowCount).sum) := by
  refine ⟨?_, ?_, ?_, ?_, ?_, ?_⟩
  · simpa using summary_foldl_total rows ⟨[], 0, 0, 0⟩
  · have h1 := summary_foldl_total rows ⟨[], 0, 0, 0⟩
    have h2 := summary_foldl_sourceTotalsSum rows ⟨[], 0, 0, 0⟩
    simp only [getSummary]
    rw [h1, h2]
    simp [sourceTotalsSum]
  · exact summary_foldl_entries rows ⟨[], 0, 0, 0⟩ (by simp)
  · simpa using summary_foldl_processed rows ⟨[], 0, 0, 0⟩
  · simpa using summary_foldl_analysed rows ⟨[], 0, 0, 0⟩
  · intro k
    have h := summary_foldl_assocTotal rows ⟨[], 0, 0, 0⟩ k
    simpa [assocTotal, List.find?] using h

/-- **C5** witness: on the worked example (with a null row added) the total
is 10, `A` totals 5, `B` totals 1, the null row is bucketed under
`unknown` (4), processed is 3 and analysed is 2. -/
theorem C5_summary_invariants_witness :
    (getSummary exAggRows).total = 10 ∧
    (getSummary exAggRows).total = sourceTotalsSum (getSummary exAggRows).sources ∧
    assocTotal (getSummary exAggRows).sources "A" = 5 ∧
    assocTotal (getSummary exAggRows).sources "B" = 1 ∧
    assocTotal (getSummary exAggRows).sources "unknown" = 4 ∧
    (getSummary exAggRows).total_processed = 3 ∧
    (getSummary exAggRows).total_analysed = 2 := by
  have h := C5_summary_invariants exAggRows
  refine ⟨?_, h.2.1, ?_, ?_, ?_, ?_, ?_⟩
  · rw [h.1]; decide
  · rw [h.2.2.2.2.2 "A"]; decide
  · rw [h.2.2.2.2.2 "B"]; decide
  · rw [h.2.2.2.2.2 "unknown"]; decide
  · rw [h.2.2.2.1]; decide
  · rw [h.2.2.2.2.1]; decide

/-- `optStrLe` is total. -/
theorem optStrLe_total (a b : Option String) :
    (optStrLe a b || optStrLe b a) = true := by
  rcases a with _ | x <;> rcases b with _ | y <;> simp [optStrLe]
  exact le_total _ _

/-- `optStrLe` is transitive. -/
theorem optStrLe_trans (a b c : Option String) :
    optStrLe a b = true → optStrLe b c = true → optStrLe a c = true := by
  rcases a with _ | x <;> rcases b with _ | y <;> rcases c with _ | z <;>
    simp [optStrLe]
  exact le_trans

/-- `fileLe` is transitive. -/
theorem fileLe_trans (a b c : DocRow) :
    fileLe a b = true → fileLe b c = true → fileLe a c = true :=
  optStrLe_trans a.filename b.filename c.filename

/-- `fileLe` is total. -/
theorem fileLe_total (a b : DocRow) : (fileLe a b || fileLe b a) = true :=
  optStrLe_total a.filename b.filename

/-- **C7**.  The upload-or-other listing returns exactly the project's rows
whose lower-cased source is `upload` or `other` (hence never a `scrape`
row); the scraped listing returns exactly the projections of the project's
rows whose lower-cased source is `scrape`; both are ordered by filename
ascending. -/
theorem C7_listing_filters (table : List DocRow) (pid : String) :
    (∀ r, r ∈ uploadOrOtherQuery table pid ↔
      (r ∈ table ∧ r.project_id = pid ∧ isUploadOrOtherSource r.source = true)) ∧
    (∀ r ∈ uploadOrOtherQuery table pid, ∀ s, r.source = some s →
      lowerStr s ≠ "scrape") ∧
    (∀ q, q ∈ scrapedQuery table pid ↔
      ∃ r, r ∈ table ∧ r.project_id = pid ∧ isScrapeSource r.source = true ∧
        scrapedProjection r = q) ∧
    List.Pairwise (fun a b => fileLe a b = true) (uploadOrOtherQuery table pid) ∧
    List.Pairwise (fun a b => optStrLe a.file_name b.file_name = true)
      (scrapedQuery table pid) := by
  have hmemU : ∀ r, r ∈ uploadOrOtherQuery table pid ↔
      (r ∈ table ∧ r.project_id = pid ∧ isUploadOrOtherSource r.source = true) := by
    intro r
    unfold uploadOrOtherQuery
    rw [(List.mergeSort_perm _ fileLe).mem_iff, List.mem_filter]
    simp [Bool.and_eq_true, and_assoc]
  refine ⟨hmemU, ?_, ?_, ?_, ?_⟩
  · intro r hr s hsrc
    have h := ((hmemU r).mp hr).2.2
    rw [hsrc] at h
    simp only [isUploadOrOtherSource, Bool.or_eq_true, beq_iff_eq] at h
    rcases h with h | h <;> rw [h] <;> decide
  · intro q
    unfold scrapedQuery
    rw [List.mem_map]
    constructor
    · rintro ⟨r, hr, hq⟩
      rw [(List.mergeSort_perm _ fileLe).mem_iff, List.mem_filter] at hr
      refine ⟨r, hr.1, ?_, ?_, hq⟩
      · have := hr.2
        simp only [Bool.and_eq_true, beq_iff_eq] at this
        exact this.1
      · have := hr.2
        simp only [Bool.and_eq_true] at this
        exact this.2
    · rintro ⟨r, hmem, hpid, hsrc, hq⟩
      refine ⟨r, ?_, hq⟩
      rw [(List.mergeSort_perm _ fileLe).mem_iff, List.mem_filter]
      exact ⟨hmem, by simp [hpid, hsrc]⟩
  · exact List.sorted_mergeSort fileLe_trans fileLe_total _
  · unfold scrapedQuery
    rw [List.pairwise_map]
    exact List.sorted_mergeSort fileLe_trans fileLe_total _

/-- **C7** witness: on the concrete table the upload row is listed by the
upload-or-other query, the scraped row's projection by the scraped query,
and the scraped listing excludes the upload row's projection. -/
theorem C7_listing_filters_witness :
    exRowUp ∈ uploadOrOtherQuery exTable "p1" ∧
    scrapedProjection exRowScrape ∈ scrapedQuery exTable "p1" ∧
    exRowScrape ∉ uploadOrOtherQuery exTable "p1" := by
  have h := C7_listing_filters exTable "p1"
  refine ⟨?_, ?_, ?_⟩
  · exact (h.1 exRowUp).mpr ⟨by decide, by decide, by decide⟩
  · exact (h.2.2.1 (scrapedProjection exRowScrape)).mpr
      ⟨exRowScrape, by decide, by decide, by decide, rfl⟩
  · intro hmem
    have hc := ((h.1 exRowScrape).mp hmem).2.2
    revert hc
    decide

end PolicyFiles
